import Mathlib

/-!
Verification of the BellowTheRoot subdomain-enumeration dashboard.

The repository ships the browser client (static/js/app.js) together with a
specification of the scan orchestration engine the client talks to.  Pure
client functions are embedded directly from app.js; the engine itself is not
part of the repository sources, so its operations are modelled from the
specification where a claim depends on them.
-/

namespace BellowTheRoot

/-! ## JavaScript value helpers

JS strings reaching the client from JSON may be absent (null / undefined) or
empty; both are falsy.  An absent-or-string value is modelled as
Option String, with none standing for null/undefined. -/

/-- Truth value of a JS string under boolean coercion: null, undefined and
the empty string are falsy. -/
def jsStrTruthy : Option String → Bool
  | none => false
  | some s => s ≠ ""

/-- Embedding of the JS idiom value || dflt for string values: the default
is taken when the value is falsy. -/
def jsOrStr (v : Option String) (dflt : String) : String :=
  match v with
  | none => dflt
  | some s => if s = "" then dflt else s

/-! ## escapeHtml (app.js lines 2129-2135, the effective declaration)

app.js declares escapeHtml twice at top level (lines 1661-1665 and
2129-2135); by JS function-declaration hoisting the later declaration is the
one every call site uses.  It returns the empty string on falsy input and
otherwise round-trips the text through a detached div's
textContent/innerHTML, which serializes a text node by replacing the
characters amp, lt, gt with their entities. -/

/-- Serialization of one character of a DOM text node, as performed by
reading innerHTML after setting textContent. -/
def escCh (c : Char) : List Char :=
  if c = '&' then "&amp;".data
  else if c = '<' then "&lt;".data
  else if c = '>' then "&gt;".data
  else [c]

/-- Character-list form of the textContent/innerHTML round trip. -/
def escList : List Char → List Char
  | [] => []
  | c :: cs => escCh c ++ escList cs

/-- Embedding of the effective escapeHtml from app.js lines 2129-2135:
falsy input yields the empty string, otherwise the text-node serialization
of the input. -/
def escapeHtml (text : Option String) : String :=
  if jsStrTruthy text = false then ""
  else String.mk (escList ((jsOrStr text "").data))

/-! ## Terminal stream line rendering (app.js startTerminalStream, 1609-1658)

Each server message carries an optional line and an optional type tag.  The
handler defaults a falsy line to the empty string and a falsy type to
stdout, picks red for stderr and green otherwise, and appends exactly one
span to the terminal output. -/

/-- One parsed message of the terminal SSE channel. -/
structure TerminalMsg where
  line : Option String
  type : Option String
deriving Repr, DecidableEq

/-- Inline style chosen for a terminal line: red for stderr, green for
everything else (app.js lines 1630-1635). -/
def terminalColorClass (msgType : String) : String :=
  if msgType = "stderr" then "color: #ff6b6b;" else "color: #00ff00;"

/-- The HTML fragment appended to the terminal output for one message
(app.js line 1638). -/
def terminalLineHtml (m : TerminalMsg) : String :=
  "<span style=\"" ++ terminalColorClass (jsOrStr m.type "stdout") ++ "\">"
    ++ escapeHtml (some (jsOrStr m.line "")) ++ "</span>\n"

/-- One rendered terminal line as the client records it: its color class and
its escaped text. -/
structure RenderedLine where
  color : String
  text : String
deriving Repr, DecidableEq

/-- Effect of the onmessage handler on the accumulated terminal output: one
line is appended per message, never zero, never more. -/
def appendTerminal (out : List RenderedLine) (m : TerminalMsg) : List RenderedLine :=
  out ++ [⟨terminalColorClass (jsOrStr m.type "stdout"),
          escapeHtml (some (jsOrStr m.line ""))⟩]

/-! ## A small HTML tag scanner

To talk about the structure of a rendered fragment we extract the tag
bodies: the character runs between an opening angle bracket and the next
closing one.  Material outside tags is text content. -/

/-- Tag scanner.  The first argument is none while scanning text content and
some acc while inside a tag, acc holding the tag body read so far in
reverse. -/
def tagsAux : Option (List Char) → List Char → List (List Char)
  | none, [] => []
  | none, c :: cs => if c = '<' then tagsAux (some []) cs else tagsAux none cs
  | some acc, [] => [acc.reverse]
  | some acc, c :: cs =>
    if c = '>' then acc.reverse :: tagsAux none cs
    else tagsAux (some (c :: acc)) cs

/-- Tag bodies of an HTML fragment, in order of appearance. -/
def extractTags (s : String) : List String :=
  (tagsAux none s.data).map String.mk

/-! ## Attribute structure of a tag

Browsers parse the body of a tag into a name followed by attributes, where a
double quote delimits an attribute value.  The scanner below recovers the
attribute names of a tag body, which is what "HTML structure" means for an
interpolation sitting inside an attribute value. -/

/-- Parser state while scanning a tag body for attribute names. -/
inductive AttrSt where
  | gap
  | attr (acc : List Char)
  | eq
  | quoted
  | uval
deriving Repr, DecidableEq

/-- Attribute-name scanner over the characters of a tag body (tag name
already removed). -/
def attrsAux : AttrSt → List String → List Char → List String
  | .gap, ns, [] => ns
  | .gap, ns, c :: cs =>
    if c.isWhitespace then attrsAux .gap ns cs
    else if c = '=' then attrsAux .eq ns cs
    else attrsAux (.attr [c]) ns cs
  | .attr acc, ns, [] => ns ++ [String.mk acc.reverse]
  | .attr acc, ns, c :: cs =>
    if c = '=' then attrsAux .eq (ns ++ [String.mk acc.reverse]) cs
    else if c.isWhitespace then attrsAux .gap (ns ++ [String.mk acc.reverse]) cs
    else attrsAux (.attr (c :: acc)) ns cs
  | .eq, ns, [] => ns
  | .eq, ns, c :: cs =>
    if c = '"' then attrsAux .quoted ns cs else attrsAux .uval ns cs
  | .quoted, ns, [] => ns
  | .quoted, ns, c :: cs =>
    if c = '"' then attrsAux .gap ns cs else attrsAux .quoted ns cs
  | .uval, ns, [] => ns
  | .uval, ns, c :: cs =>
    if c.isWhitespace then attrsAux .gap ns cs else attrsAux .uval ns cs

/-- Attribute names of one tag body. -/
def tagAttrNames (tagBody : String) : List String :=
  attrsAux .gap [] (tagBody.data.dropWhile (fun c => c.isWhitespace = false))

/-- Attribute names of the first tag of an HTML fragment. -/
def firstTagAttrNames (fragment : String) : List String :=
  match extractTags fragment with
  | [] => []
  | t :: _ => tagAttrNames t

/-- The sidebar project row interpolates the project name into a title
attribute and into element content, both through escapeHtml (app.js line
105). -/
def projectNameSpanHtml (projectName : Option String) : String :=
  "<span title=\"" ++ escapeHtml projectName ++ "\">"
    ++ escapeHtml projectName ++ "</span>"

/-! ## dedupeSubdomainsByName (app.js lines 1974-1991)

Rows are keyed by the normalized subdomain name in a JS Map; an existing
entry is replaced when the new row's discovery timestamp is at least as
recent, and the surviving rows are sorted most-recent first.  Date.parse of
the discovered_at string is abstracted into an optional numeric timestamp
(none when the string is absent or unparseable, mirroring NaN, which the
code collapses to 0 via the or-zero idiom). -/

/-- One row of a subdomain listing as consumed by dedupeSubdomainsByName:
its (possibly absent) subdomain name, the abstracted result of Date.parse
on its discovered_at field, and a tag distinguishing the row. -/
structure SubRow where
  subdomain : Option String
  discoveredTs : Option Nat
  tag : Nat
deriving Repr, DecidableEq

/-- Character-level lowercasing, the effect of JS toLowerCase on the ASCII
hostnames at issue. -/
def lowChars (l : List Char) : List Char :=
  l.map Char.toLower

/-- Character-level trim: surrounding whitespace removed from both ends, the
effect of JS trim. -/
def trimChars (l : List Char) : List Char :=
  ((l.dropWhile Char.isWhitespace).reverse.dropWhile Char.isWhitespace).reverse

/-- The Map key of a row: (s.subdomain || '').toLowerCase().trim(). -/
def normName (s : SubRow) : String :=
  String.mk (trimChars (lowChars ((jsOrStr s.subdomain "").data)))

/-- JS timestamp of a row under the or-zero idiom: Date.parse(x) || 0. -/
def rowTs (s : SubRow) : Nat :=
  s.discoveredTs.getD 0

/-- Lookup in an insertion-ordered association list, as JS Map.get. -/
def mapGet (m : List (String × SubRow)) (k : String) : Option SubRow :=
  (m.find? (fun p => p.1 == k)).map (fun p => p.2)

/-- Insertion-ordered update, as JS Map.set: an existing key keeps its
position and gets the new value, a new key is appended. -/
def mapSet (m : List (String × SubRow)) (k : String) (v : SubRow) :
    List (String × SubRow) :=
  if m.any (fun p => p.1 == k) then
    m.map (fun p => if p.1 == k then (k, v) else p)
  else m ++ [(k, v)]

/-- Body of the for-of loop of dedupeSubdomainsByName: discard rows with an
empty normalized name, insert unseen names, and replace a seen name when
the new row's timestamp is at least the stored one. -/
def dedupeStep (m : List (String × SubRow)) (s : SubRow) :
    List (String × SubRow) :=
  let name := normName s
  if name = "" then m
  else
    match mapGet m name with
    | none => mapSet m name s
    | some existing => if rowTs existing ≤ rowTs s then mapSet m name s else m

/-- Stable insertion into a list sorted by descending timestamp, matching
the comparator (a, b) => ts(b) - ts(a) of a stable Array.sort. -/
def insertDescByTs (r : SubRow) : List SubRow → List SubRow
  | [] => [r]
  | x :: xs =>
    if rowTs x ≤ rowTs r then r :: x :: xs else x :: insertDescByTs r xs

/-- Stable sort by descending timestamp. -/
def sortDescByTs : List SubRow → List SubRow
  | [] => []
  | x :: xs => insertDescByTs x (sortDescByTs xs)

/-- Embedding of dedupeSubdomainsByName (app.js lines 1974-1991). -/
def dedupeSubdomainsByName (subdomains : List SubRow) : List SubRow :=
  sortDescByTs ((subdomains.foldl dedupeStep []).map (fun p => p.2))

/-! ## renderStatusBadge (app.js lines 2150-2211)

The probe status strings arrive from JSON and may be numbers rendered as
strings, enum strings, null or undefined.  parseInt is embedded with its
JS semantics on strings: skip leading whitespace, optional sign, then a
non-empty run of digits, NaN (here: none) otherwise. -/

/-- Leading decimal digits of a character list. -/
def leadDigits : List Char → List Char
  | [] => []
  | c :: cs => if c.isDigit then c :: leadDigits cs else []

/-- Numeric value of a digit run. -/
def digitsToNat (ds : List Char) : Nat :=
  ds.foldl (fun a c => a * 10 + (c.toNat - '0'.toNat)) 0

/-- JS parseInt on a string, radix 10: none models NaN. -/
def parseIntJS (s : String) : Option Int :=
  let cs := s.data.dropWhile (fun c => c.isWhitespace)
  match cs with
  | '-' :: rest =>
    let ds := leadDigits rest
    if ds = [] then none else some (-(digitsToNat ds : Int))
  | '+' :: rest =>
    let ds := leadDigits rest
    if ds = [] then none else some ((digitsToNat ds : Int))
  | _ =>
    let ds := leadDigits cs
    if ds = [] then none else some ((digitsToNat ds : Int))

/-- The numeric status code of a probe field: null stays null, a string
goes through parseInt (app.js lines 2157-2158). -/
def statusCodeOf (v : Option String) : Option Int :=
  match v with
  | none => none
  | some s => parseIntJS s

/-- Whether a protocol responded: its code is a number, not NaN, and not
zero (app.js lines 2176-2177). -/
def hasCode (v : Option String) : Bool :=
  match statusCodeOf v with
  | none => false
  | some n => n != 0

/-- The early-return badge container for falsy or pending probe status. -/
def pendingBadgeHtml : String :=
  "<div class=\"status-badges-container\"><div class=\"status-badge-row\"><span class=\"status-badge status-pending\">Pending</span></div></div>"

/-- The first-line status badge span (app.js lines 2161-2171). -/
def statusBadgeSpan (isOnline : Option String) : String :=
  if isOnline == some "online_both" || isOnline == some "online_http"
      || isOnline == some "online_https" then
    "<span class=\"status-badge status-online-both\">Online</span>"
  else if isOnline == some "dns_only" then
    "<span class=\"status-badge status-dns-only\">DNS Only</span>"
  else if isOnline == some "offline" then
    "<span class=\"status-badge status-offline\">Offline</span>"
  else
    "<span class=\"status-badge status-pending\">Unknown</span>"

/-- Protocol badges: one per protocol with a usable status code (app.js
lines 2179-2187). -/
def protocolBadges (http https : Option String) : List String :=
  (if hasCode http then
    ["<span class=\"status-badge status-protocol-http\">HTTP</span>"]
   else []) ++
  (if hasCode https then
    ["<span class=\"status-badge status-protocol-https\">HTTPS</span>"]
   else [])

/-- One response-code badge (app.js lines 2190-2198). -/
def codeBadgeSpan (n : Int) : String :=
  "<span class=\"status-badge status-code\">" ++ escapeHtml (some (toString n))
    ++ "</span>"

/-- Response-code badges: a shared code is rendered once, otherwise one
badge per responding protocol (app.js lines 2189-2198). -/
def codeBadges (http https : Option String) : List String :=
  let hc := statusCodeOf http
  let sc := statusCodeOf https
  if hasCode http && hasCode https && hc == sc then
    [codeBadgeSpan (hc.getD 0)]
  else
    (if hasCode http then [codeBadgeSpan (hc.getD 0)] else []) ++
    (if hasCode https then [codeBadgeSpan (sc.getD 0)] else [])

/-- Embedding of renderStatusBadge (app.js lines 2150-2211). -/
def renderStatusBadge (isOnline http https : Option String) : String :=
  if jsStrTruthy isOnline = false || isOnline == some "pending" then
    pendingBadgeHtml
  else
    let secondBadges := protocolBadges http https ++ codeBadges http https
    let secondLine :=
      if secondBadges.length > 0 then
        "<div class=\"status-badge-row\">" ++ String.intercalate " " secondBadges
          ++ "</div>"
      else ""
    "<div class=\"status-badges-container\">\n        <div class=\"status-badge-row\">"
      ++ statusBadgeSpan isOnline ++ "</div>\n        " ++ secondLine
      ++ "\n    </div>"

/-! ## Probe progress polling (app.js showProbeProgress, lines 2803-2843)

Every 500 ms the client fetches the job snapshot.  A completed snapshot
stops the interval, hides the bar, toasts success and reloads the view; a
failed snapshot stops and toasts an error; any thrown error (apiRequest
throws on a non-ok response, JobNotFound included) stops the interval,
hides the bar and reloads the view without any error report. -/

/-- One snapshot of a probe job as the client receives it. -/
structure ProbeProgressMsg where
  status : Option String
  completed : Nat
  total : Nat
  progress_percent : Option ℚ
deriving Repr, DecidableEq

/-- Effects of one tick of the showProbeProgress poll loop. -/
structure PollAction where
  clearPollInterval : Bool
  hideProgressBar : Bool
  reloadView : Bool
  toastSuccess : Bool
  toastError : Bool
  barPercent : Option ℚ
deriving Repr, DecidableEq

/-- Embedding of one iteration of the showProbeProgress poll loop (app.js
lines 2816-2842): the ok branch mirrors the try block, the error branch the
catch block. -/
def pollStep : Except String ProbeProgressMsg → PollAction
  | .error _ => ⟨true, true, true, false, false, none⟩
  | .ok p =>
    let percent := p.progress_percent.getD 0
    if p.status == some "completed" then ⟨true, true, true, true, false, some percent⟩
    else if p.status == some "failed" then ⟨true, true, false, false, true, some percent⟩
    else ⟨false, false, false, false, false, some percent⟩

/-! ## updateScanStatus (app.js lines 1560-1607)

On a terminal status the client closes the status EventSource at once,
schedules the terminal EventSource close 3000 milliseconds later, and
reloads the scan's subdomain list. -/

/-- One message of the status SSE channel as the client consumes it. -/
structure ScanStatusMsg where
  status : String
  subdomain_count : Nat
  completed_tools : Nat
  total_tools : Nat
  current_tool : Option String
  new_subdomains : Option (List String)
deriving Repr, DecidableEq

/-- Whether a status string is terminal for the client (app.js line 1591). -/
def isTerminalStatus (st : String) : Bool :=
  st == "completed" || st == "failed" || st == "stopped"

/-- Stream and reload effects of one updateScanStatus call. -/
structure StatusUpdateEffect where
  statusStreamClosedNow : Bool
  terminalStreamClosedNow : Bool
  terminalCloseDelayMs : Option Nat
  reloadedScanSubdomains : Bool
  stopBtnVisible : Bool
deriving Repr, DecidableEq

/-- Embedding of the effects of updateScanStatus (app.js lines 1560-1607):
a terminal status closes the status stream now, schedules the terminal
stream close after 3000 ms, and reloads the subdomain list; the stop button
is shown exactly while the status is running or pending. -/
def updateScanStatusEffect (d : ScanStatusMsg) : StatusUpdateEffect :=
  ⟨isTerminalStatus d.status,
   false,
   if isTerminalStatus d.status then some 3000 else none,
   isTerminalStatus d.status,
   d.status == "running" || d.status == "pending"⟩

/-- Progress percentage as computed by updateProgressDisplay (app.js line
1777) when the bar is shown. -/
def progressPercentJS (completed total : Nat) : ℚ :=
  ((completed : ℚ) / (total : ℚ)) * 100

/-- Whether updateProgressDisplay shows the progress bar (app.js line
1749): only a running status with a positive tool total. -/
def progressBarShown (d : ScanStatusMsg) : Bool :=
  d.status == "running" && d.total_tools != 0

/-- Stop button state the client maintains around a stop request. -/
structure StopBtnState where
  disabled : Bool
  labelStopping : Bool
deriving Repr, DecidableEq

/-- Effect of clicking Stop before the request is sent (app.js lines
1701-1702): the button is disabled and relabelled, preventing further
clicks while the stop request is in flight. -/
def stopBtnOnClickStart (_b : StopBtnState) : StopBtnState :=
  ⟨true, true⟩

/-! ## The Scan Lifecycle Manager, modelled from the spec

The engine itself (a server-side component) is not among the repository's
source files; only its specification and its browser client are.  The
definitions below are therefore modelled from the spec, sections 4.1, 4.2,
4.4 and 5: the scan state machine pending → running → one of completed,
failed, stopped; per-tool progress counting; merge of discovered hostnames
into provenance links; idempotent stop. -/

/-- Modelled from the spec: the scan status enum of section 3. -/
inductive ScanStatus where
  | pending
  | running
  | completed
  | failed
  | stopped
deriving Repr, DecidableEq

/-- Modelled from the spec: one ScanSubdomain provenance link of a single
scan: hostname, discovering tool, discovery time. -/
structure ScanLink where
  hostname : String
  toolName : String
  discoveredAt : Nat
deriving Repr, DecidableEq

/-- Modelled from the spec: the mutable part of one Scan record owned by
the Lifecycle Manager, together with the provenance links created for it by
the Dedup and Merge Engine. -/
structure EngineScan where
  status : ScanStatus
  totalTools : Nat
  completedTools : Nat
  currentTool : Option String
  links : List ScanLink
deriving Repr, DecidableEq

/-- Modelled from the spec: one event published on the Event Streaming Bus
for a scan: a status-channel message or a terminal-channel line tagged with
its type. -/
inductive ScanEv where
  | statusEv (st : ScanStatus)
  | termLine (type : String) (line : String)
deriving Repr, DecidableEq

/-- Modelled from the spec: the commands the Lifecycle Manager processes
during a scan's life: begin running, a tool starting, a tool finishing
(successfully or as a tolerated failure), a merged discovery, completion,
orchestration failure, and a stop request. -/
inductive ScanCmd where
  | start
  | toolStart (toolName : String)
  | toolFinish (failed : Bool) (errLine : String)
  | mergeLink (l : ScanLink)
  | complete
  | fail
  | stop
deriving Repr, DecidableEq

/-- Modelled from the spec (sections 4.1, 4.2, 4.4, 5): one step of the
Lifecycle Manager.  A tool finish increments completed_tools exactly once
and, when the tool failed, publishes one stderr terminal line without
aborting the scan; merge appends a provenance link; stop transitions
pending or running to stopped, publishes exactly one stopped status event,
and leaves the links untouched; every command is a no-op on a state it does
not apply to, so a second stop neither errors nor emits. -/
def scanStep (s : EngineScan) : ScanCmd → EngineScan × List ScanEv
  | .start =>
    if s.status = .pending then
      ({ s with status := .running }, [.statusEv .running])
    else (s, [])
  | .toolStart n =>
    if s.status = .running ∧ s.completedTools < s.totalTools then
      ({ s with currentTool := some n }, [])
    else (s, [])
  | .toolFinish failed errLine =>
    if s.status = .running ∧ s.completedTools < s.totalTools then
      ({ s with
          completedTools := s.completedTools + 1,
          currentTool :=
            if s.completedTools + 1 = s.totalTools then none else s.currentTool },
        (if failed then [ScanEv.termLine "stderr" errLine] else [])
          ++ [.statusEv .running])
    else (s, [])
  | .mergeLink l =>
    if s.status = .running then
      ({ s with links := s.links ++ [l] }, [.statusEv .running])
    else (s, [])
  | .complete =>
    if s.status = .running ∧ s.completedTools = s.totalTools then
      ({ s with status := .completed, currentTool := none },
        [.statusEv .completed])
    else (s, [])
  | .fail =>
    if s.status = .running then
      ({ s with status := .failed, currentTool := none }, [.statusEv .failed])
    else (s, [])
  | .stop =>
    if s.status = .pending ∨ s.status = .running then
      ({ s with status := .stopped, currentTool := none }, [.statusEv .stopped])
    else (s, [])

/-- Modelled from the spec: the Scan record as created by StartScan. -/
def initScan (total : Nat) : EngineScan :=
  ⟨.pending, total, 0, none, []⟩

/-- Modelled from the spec: the Lifecycle Manager processing a command
sequence, accumulating the published events. -/
def scanRun (s : EngineScan) : List ScanCmd → EngineScan × List ScanEv
  | [] => (s, [])
  | c :: cs =>
    let r1 := scanStep s c
    let r2 := scanRun r1.1 cs
    (r2.1, r1.2 ++ r2.2)

/-- The spec's Scan invariant (section 3): completed_tools never exceeds
total_tools and current_tool is set only while the status is running. -/
def ScanInv (s : EngineScan) : Prop :=
  s.completedTools ≤ s.totalTools ∧ (s.currentTool ≠ none → s.status = .running)

/-! ## The Probe Job Tracker, modelled from the spec (section 4.6) -/

/-- Modelled from the spec: the probe job status enum. -/
inductive ProbeStatus where
  | running
  | completed
  | failed
deriving Repr, DecidableEq

/-- Modelled from the spec: one ProbeJob snapshot: status, unit total and
units completed (progress_percent is derived from these after each unit). -/
structure ProbeJob where
  status : ProbeStatus
  total : Nat
  completed : Nat
deriving Repr, DecidableEq

/-- Modelled from the spec: progress_percent of a job snapshot. -/
def probeProgressPercent (j : ProbeJob) : ℚ :=
  if j.total = 0 then 0 else ((j.completed : ℚ) / (j.total : ℚ)) * 100

/-- Modelled from the spec: one probe unit finishing: completed increments
while the job runs, and the status flips to completed exactly when the last
unit finishes. -/
def probeStep (j : ProbeJob) : ProbeJob :=
  if j.status = .running ∧ j.completed < j.total then
    ⟨if j.completed + 1 = j.total then .completed else .running,
      j.total, j.completed + 1⟩
  else j

/-- Modelled from the spec: the job ProbeMany creates for a batch of the
given size. -/
def initProbeJob (total : Nat) : ProbeJob :=
  ⟨.running, total, 0⟩

/-- Modelled from the spec: the job after n probe units have finished. -/
def probeRun (j : ProbeJob) : Nat → ProbeJob
  | 0 => j
  | n + 1 => probeRun (probeStep j) n

/-! ## Lemmas about dedupeSubdomainsByName -/

theorem insertDescByTs_perm (r : SubRow) (l : List SubRow) :
    List.Perm (insertDescByTs r l) (r :: l) := by
  induction l with
  | nil => simp [insertDescByTs]
  | cons x xs ih =>
    simp only [insertDescByTs]
    split
    · exact List.Perm.refl _
    · exact (ih.cons x).trans (List.Perm.swap r x xs)

theorem sortDescByTs_perm (l : List SubRow) : List.Perm (sortDescByTs l) l := by
  induction l with
  | nil => simp [sortDescByTs]
  | cons x xs ih =>
    exact (insertDescByTs_perm x (sortDescByTs xs)).trans (ih.cons x)

theorem sortDescByTs_length (l : List SubRow) :
    (sortDescByTs l).length = l.length :=
  (sortDescByTs_perm l).length_eq

theorem mapSet_mem {m : List (String × SubRow)} {k : String} {v : SubRow}
    {p : String × SubRow} (h : p ∈ mapSet m k v) : p ∈ m ∨ p.2 = v := by
  unfold mapSet at h
  split at h
  · rcases List.mem_map.mp h with ⟨q, hq, rfl⟩
    by_cases hk : q.1 == k
    · right; simp [hk]
    · left; simpa [hk] using hq
  · rcases List.mem_append.mp h with h1 | h1
    · exact Or.inl h1
    · right; rcases List.mem_singleton.mp h1 with rfl; rfl

theorem dedupeStep_mem {m : List (String × SubRow)} {s : SubRow}
    {p : String × SubRow} (h : p ∈ dedupeStep m s) : p ∈ m ∨ p.2 = s := by
  unfold dedupeStep at h
  by_cases hn : normName s = ""
  · simp [hn] at h; exact Or.inl h
  · simp only [hn, if_false] at h
    rcases hg : mapGet m (normName s) with _ | existing
    · rw [hg] at h; exact mapSet_mem h
    · rw [hg] at h
      dsimp only at h
      by_cases hts : rowTs existing ≤ rowTs s
      · rw [if_pos hts] at h; exact mapSet_mem h
      · rw [if_neg hts] at h; exact Or.inl h

theorem dedupe_foldl_norm_ne {rows : List SubRow} :
    ∀ {m : List (String × SubRow)},
      (∀ p ∈ m, normName p.2 ≠ "") →
      ∀ p ∈ rows.foldl dedupeStep m, normName p.2 ≠ "" := by
  induction rows with
  | nil => intro m hm p hp; exact hm p hp
  | cons s rest ih =>
    intro m hm p hp
    refine ih ?_ p hp
    intro q hq
    rcases dedupeStep_mem hq with h1 | h1
    · exact hm q h1
    · rw [h1]
      intro hcon
      unfold dedupeStep at hq
      simp [hcon] at hq
      exact (hm q hq) (h1 ▸ hcon)

theorem dedupe_pair_collapse (r1 r2 : SubRow)
    (heq : normName r1 = normName r2) (hne : normName r1 ≠ "") :
    (dedupeSubdomainsByName [r1, r2]).length = 1 := by
  unfold dedupeSubdomainsByName
  rw [sortDescByTs_length, List.length_map]
  have h1 : List.foldl dedupeStep [] [r1, r2] = dedupeStep (dedupeStep [] r1) r2 := rfl
  rw [h1]
  have e1 : dedupeStep [] r1 = [(normName r1, r1)] := by
    unfold dedupeStep
    rw [if_neg hne]
    simp [mapGet, mapSet]
  rw [e1]
  unfold dedupeStep
  rw [← heq, if_neg hne]
  have e2 : mapGet [(normName r1, r1)] (normName r1) = some r1 := by
    simp [mapGet]
  rw [e2]
  dsimp only
  by_cases hts : rowTs r1 ≤ rowTs r2
  · rw [if_pos hts]; simp [mapSet]
  · rw [if_neg hts]; simp

/-- C1 (amended): dedupeSubdomainsByName keys rows by the normalized name
(s.subdomain or empty, lowercased then trimmed); it does not strip a URL
scheme.  Two rows whose names agree after lowercasing and trimming — in
particular names differing only in case or surrounding whitespace —
collapse to a single displayed row, and every row whose name normalizes to
the empty string is discarded from the output. -/
theorem dedupe_normalizes_case_and_whitespace :
    (∀ r1 r2 : SubRow, normName r1 = normName r2 → normName r1 ≠ "" →
      (dedupeSubdomainsByName [r1, r2]).length = 1) ∧
    (∀ rows : List SubRow, ∀ r ∈ dedupeSubdomainsByName rows, normName r ≠ "") := by
  constructor
  · exact dedupe_pair_collapse
  · intro rows r hr
    unfold dedupeSubdomainsByName at hr
    have hr2 : r ∈ (List.foldl dedupeStep [] rows).map (fun p => p.2) :=
      (sortDescByTs_perm _).mem_iff.mp hr
    rcases List.mem_map.mp hr2 with ⟨p, hp, rfl⟩
    exact dedupe_foldl_norm_ne (by intro q hq; cases hq) p hp

/-- C1 counterexample: the normalization dedupeSubdomainsByName applies is
only lowercase-and-trim, so a hostname written with a scheme does not merge
with the same hostname written bare — the claim's scheme-stripping predicts
one row, the code produces two. -/
theorem dedupe_does_not_strip_scheme :
    (dedupeSubdomainsByName
      [⟨some "http://a.example.com", some 1, 0⟩,
       ⟨some "a.example.com", some 2, 1⟩]).length ≠ 1 := by
  decide

/-- C1 witness: the spec's own example pair, differing only in case and
surrounding whitespace, collapses to one row. -/
theorem dedupe_case_whitespace_witness :
    (dedupeSubdomainsByName
      [⟨some " Foo.Example.com ", some 1, 0⟩,
       ⟨some "foo.example.com", some 2, 1⟩]).length = 1 :=
  dedupe_normalizes_case_and_whitespace.1
    ⟨some " Foo.Example.com ", some 1, 0⟩
    ⟨some "foo.example.com", some 2, 1⟩
    (by decide) (by decide)

/-- C2: when a status message carries a terminal status (completed, failed
or stopped), the client closes the status stream immediately and does not
close the terminal stream, instead scheduling its close 3000 milliseconds
later so last-moment lines can still be delivered. -/
theorem terminal_status_grace_period (d : ScanStatusMsg)
    (h : isTerminalStatus d.status = true) :
    (updateScanStatusEffect d).statusStreamClosedNow = true ∧
    (updateScanStatusEffect d).terminalStreamClosedNow = false ∧
    (updateScanStatusEffect d).terminalCloseDelayMs = some 3000 := by
  refine ⟨?_, rfl, ?_⟩ <;> simp [updateScanStatusEffect, h]

/-- C2 witness: a completed status message closes the status stream at once
and schedules the terminal close 3000 ms later. -/
theorem terminal_status_grace_period_witness :
    isTerminalStatus "completed" = true ∧
    (updateScanStatusEffect ⟨"completed", 5, 3, 3, none, none⟩).statusStreamClosedNow = true ∧
    (updateScanStatusEffect ⟨"completed", 5, 3, 3, none, none⟩).terminalStreamClosedNow = false ∧
    (updateScanStatusEffect ⟨"completed", 5, 3, 3, none, none⟩).terminalCloseDelayMs = some 3000 :=
  ⟨by decide, terminal_status_grace_period ⟨"completed", 5, 3, 3, none, none⟩ (by decide)⟩

/-- C3: a failing GetProbeProgress poll (apiRequest throws, JobNotFound
included) lands in the catch handler, which stops the poll interval, hides
the progress bar and reloads the view — the same stop, hide and reload the
completed branch performs — and neither retries nor reports an error. -/
theorem probe_poll_failure_assumes_completed (e : String) (p : ProbeProgressMsg)
    (hp : p.status = some "completed") :
    (pollStep (Except.error e)).clearPollInterval = true ∧
    (pollStep (Except.error e)).hideProgressBar = true ∧
    (pollStep (Except.error e)).reloadView = true ∧
    (pollStep (Except.error e)).toastError = false ∧
    (pollStep (Except.error e)).toastSuccess = false ∧
    (pollStep (Except.error e)).clearPollInterval = (pollStep (Except.ok p)).clearPollInterval ∧
    (pollStep (Except.error e)).hideProgressBar = (pollStep (Except.ok p)).hideProgressBar ∧
    (pollStep (Except.error e)).reloadView = (pollStep (Except.ok p)).reloadView := by
  simp [pollStep, hp]

/-- C3 witness: a JobNotFound error on a poll of a finished job stops the
loop, hides the bar and reloads, with no error surfaced. -/
theorem probe_poll_failure_witness :
    (pollStep (Except.error "JobNotFound")).clearPollInterval = true ∧
    (pollStep (Except.error "JobNotFound")).hideProgressBar = true ∧
    (pollStep (Except.error "JobNotFound")).reloadView = true ∧
    (pollStep (Except.error "JobNotFound")).toastError = false :=
  have h := probe_poll_failure_assumes_completed "JobNotFound"
    ⟨some "completed", 3, 3, some 100⟩ rfl
  ⟨h.1, h.2.1, h.2.2.1, h.2.2.2.1⟩

/-! ## Lemmas about the modelled Scan Lifecycle Manager -/

theorem scanStep_totalTools (s : EngineScan) (c : ScanCmd) :
    (scanStep s c).1.totalTools = s.totalTools := by
  cases c <;> simp only [scanStep] <;> split <;> rfl

theorem scanStep_completed_le (s : EngineScan) (c : ScanCmd) :
    s.completedTools ≤ (scanStep s c).1.completedTools := by
  cases c <;> simp only [scanStep] <;> split <;> simp

theorem scanStep_inv {s : EngineScan} (c : ScanCmd) (h : ScanInv s) :
    ScanInv (scanStep s c).1 := by
  obtain ⟨h1, h2⟩ := h
  cases c <;> simp only [scanStep] <;> split
  case start.isTrue => exact ⟨h1, fun _ => rfl⟩
  case start.isFalse => exact ⟨h1, h2⟩
  case toolStart.isTrue => exact ⟨h1, fun _ => (by assumption : _ ∧ _).1⟩
  case toolStart.isFalse => exact ⟨h1, h2⟩
  case toolFinish.isTrue h' => exact ⟨h'.2, fun _ => h'.1⟩
  case toolFinish.isFalse => exact ⟨h1, h2⟩
  case mergeLink.isTrue h' => exact ⟨h1, fun _ => h'⟩
  case mergeLink.isFalse => exact ⟨h1, h2⟩
  case complete.isTrue => exact ⟨h1, fun hc => absurd rfl hc⟩
  case complete.isFalse => exact ⟨h1, h2⟩
  case fail.isTrue => exact ⟨h1, fun hc => absurd rfl hc⟩
  case fail.isFalse => exact ⟨h1, h2⟩
  case stop.isTrue => exact ⟨h1, fun hc => absurd rfl hc⟩
  case stop.isFalse => exact ⟨h1, h2⟩

theorem scanRun_inv {s : EngineScan} (cmds : List ScanCmd) (h : ScanInv s) :
    ScanInv (scanRun s cmds).1 := by
  induction cmds generalizing s with
  | nil => exact h
  | cons c cs ih => exact ih (scanStep_inv c h)

theorem scanRun_completed_le (s : EngineScan) (cmds : List ScanCmd) :
    s.completedTools ≤ (scanRun s cmds).1.completedTools := by
  induction cmds generalizing s with
  | nil => exact Nat.le_refl _
  | cons c cs ih =>
    exact (scanStep_completed_le s c).trans (ih (scanStep s c).1)

theorem scanStep_stop_active {s : EngineScan}
    (hs : s.status = .pending ∨ s.status = .running) :
    scanStep s .stop
      = ({ s with status := .stopped, currentTool := none },
         [ScanEv.statusEv .stopped]) := by
  simp only [scanStep]
  exact if_pos hs

theorem scanStep_terminal_noop {s : EngineScan} (c : ScanCmd)
    (hs : s.status = .completed ∨ s.status = .failed ∨ s.status = .stopped) :
    scanStep s c = (s, []) := by
  have hp : ¬ s.status = .pending := by
    rcases hs with h | h | h <;> rw [h] <;> intro hc <;> cases hc
  have hr : ¬ s.status = .running := by
    rcases hs with h | h | h <;> rw [h] <;> intro hc <;> cases hc
  cases c <;> simp only [scanStep]
  case start => exact if_neg hp
  case toolStart => exact if_neg (fun h => hr h.1)
  case toolFinish => exact if_neg (fun h => hr h.1)
  case mergeLink => exact if_neg hr
  case complete => exact if_neg (fun h => hr h.1)
  case fail => exact if_neg hr
  case stop => exact if_neg (fun h => h.elim hp hr)

theorem scanRun_terminal_noop {s : EngineScan} (cmds : List ScanCmd)
    (hs : s.status = .completed ∨ s.status = .failed ∨ s.status = .stopped) :
    (scanRun s cmds).1 = s := by
  induction cmds with
  | nil => rfl
  | cons c cs ih =>
    show (scanRun (scanStep s c).1 cs).1 = s
    rw [scanStep_terminal_noop c hs]
    exact ih

theorem scanStep_stop_links (s : EngineScan) :
    (scanStep s .stop).1.links = s.links := by
  simp only [scanStep]; split <;> rfl

/-- C4: stopping never removes earlier discoveries: a stop request keeps
the link list intact, any link present before the stop is still present in
the stopped state and after any further processing, and the client's
handling of the stopped status message reloads the subdomain list. -/
theorem stop_preserves_prior_links (s : EngineScan) (l : ScanLink)
    (cmds : List ScanCmd) (d : ScanStatusMsg)
    (hl : l ∈ s.links) (hs : s.status = .pending ∨ s.status = .running)
    (hd : d.status = "stopped") :
    (scanStep s .stop).1.status = .stopped ∧
    (scanStep s .stop).1.links = s.links ∧
    l ∈ (scanRun (scanStep s .stop).1 cmds).1.links ∧
    (updateScanStatusEffect d).reloadedScanSubdomains = true := by
  rw [scanStep_stop_active hs]
  refine ⟨rfl, rfl, ?_, ?_⟩
  · rw [scanRun_terminal_noop cmds (Or.inr (Or.inr rfl))]
    exact hl
  · simp [updateScanStatusEffect, isTerminalStatus, hd]

/-- C4 witness: a concrete running scan with one recorded link keeps that
link through a stop and further commands, and the client reloads. -/
theorem stop_preserves_prior_links_witness :
    (⟨"a.example.com", "subfinder", 5⟩ : ScanLink) ∈
      (scanRun
        (scanStep ⟨.running, 2, 1, none, [⟨"a.example.com", "subfinder", 5⟩]⟩ .stop).1
        [.toolFinish false "", .stop]).1.links ∧
    (updateScanStatusEffect ⟨"stopped", 1, 1, 2, none, none⟩).reloadedScanSubdomains = true :=
  have h := stop_preserves_prior_links
    ⟨.running, 2, 1, none, [⟨"a.example.com", "subfinder", 5⟩]⟩
    ⟨"a.example.com", "subfinder", 5⟩
    [.toolFinish false "", .stop]
    ⟨"stopped", 1, 1, 2, none, none⟩
    (by decide) (Or.inr rfl) rfl
  ⟨h.2.2.1, h.2.2.2⟩

/-- C5: StopScan is idempotent: on a pending or running scan one stop
transitions the status to stopped and publishes exactly one stopped status
event; a second stop is a no-op that publishes nothing, so two stops
produce exactly one stopped event; the client additionally disables the
Stop button the moment a stop request starts. -/
theorem stopScan_idempotent (s : EngineScan) (b : StopBtnState)
    (hs : s.status = .pending ∨ s.status = .running) :
    (scanStep s .stop).1.status = .stopped ∧
    (scanStep s .stop).2 = [ScanEv.statusEv .stopped] ∧
    scanStep (scanStep s .stop).1 .stop = ((scanStep s .stop).1, []) ∧
    ((scanStep s .stop).2 ++ (scanStep (scanStep s .stop).1 .stop).2)
      = [ScanEv.statusEv .stopped] ∧
    (stopBtnOnClickStart b).disabled = true := by
  rw [scanStep_stop_active hs]
  have h2 := @scanStep_terminal_noop
    { s with status := .stopped, currentTool := none } .stop (Or.inr (Or.inr rfl))
  exact ⟨rfl, rfl, h2, by rw [h2]; rfl, rfl⟩

/-- C5 witness: stopping a concrete running scan twice yields one stopped
event and a second stop that changes nothing; the stop click disables the
button. -/
theorem stopScan_idempotent_witness :
    (scanStep ⟨.running, 3, 1, some "subfinder", []⟩ .stop).2
      = [ScanEv.statusEv .stopped] ∧
    scanStep (scanStep ⟨.running, 3, 1, some "subfinder", []⟩ .stop).1 .stop
      = ((scanStep ⟨.running, 3, 1, some "subfinder", []⟩ .stop).1, []) ∧
    (stopBtnOnClickStart ⟨false, false⟩).disabled = true :=
  have h := stopScan_idempotent ⟨.running, 3, 1, some "subfinder", []⟩
    ⟨false, false⟩ (Or.inr rfl)
  ⟨h.2.1, h.2.2.1, h.2.2.2.2⟩

theorem progressPercentJS_bounds (c t : Nat) (hct : c ≤ t) (ht : t ≠ 0) :
    0 ≤ progressPercentJS c t ∧ progressPercentJS c t ≤ 100 := by
  have htq : (0:ℚ) < t := by exact_mod_cast Nat.pos_of_ne_zero ht
  constructor
  · unfold progressPercentJS
    positivity
  · unfold progressPercentJS
    have h1 : (c:ℚ) / t ≤ 1 := by
      rw [div_le_one htq]
      exact_mod_cast hct
    calc (c:ℚ) / t * 100 ≤ 1 * 100 :=
          mul_le_mul_of_nonneg_right h1 (by norm_num)
    _ = 100 := by norm_num

/-- C6: at every state the engine reaches, completed_tools stays between 0
and total_tools, completed_tools never decreases under further processing,
current_tool is set only while the status is running, and the percentage
the client computes as completed divided by total times 100 for a running
scan with a positive tool count lies between 0 and 100. -/
theorem scan_progress_counters_invariant (t : Nat) (cmds more : List ScanCmd) :
    0 ≤ (scanRun (initScan t) cmds).1.completedTools ∧
    (scanRun (initScan t) cmds).1.completedTools
      ≤ (scanRun (initScan t) cmds).1.totalTools ∧
    ((scanRun (initScan t) cmds).1.currentTool ≠ none →
      (scanRun (initScan t) cmds).1.status = .running) ∧
    (scanRun (initScan t) cmds).1.completedTools
      ≤ (scanRun (scanRun (initScan t) cmds).1 more).1.completedTools ∧
    ((scanRun (initScan t) cmds).1.status = .running →
      (scanRun (initScan t) cmds).1.totalTools ≠ 0 →
      0 ≤ progressPercentJS (scanRun (initScan t) cmds).1.completedTools
            (scanRun (initScan t) cmds).1.totalTools ∧
      progressPercentJS (scanRun (initScan t) cmds).1.completedTools
            (scanRun (initScan t) cmds).1.totalTools ≤ 100) := by
  have hinv : ScanInv (scanRun (initScan t) cmds).1 :=
    scanRun_inv cmds ⟨Nat.zero_le t, fun h => absurd rfl h⟩
  exact ⟨Nat.zero_le _, hinv.1, hinv.2, scanRun_completed_le _ more,
    fun _ hnz => progressPercentJS_bounds _ _ hinv.1 hnz⟩

/-- C6 witness: after start and one finished tool out of two, the invariant
holds and the displayed percentage is between 0 and 100. -/
theorem scan_progress_counters_witness :
    (scanRun (initScan 2) [.start, .toolStart "subfinder", .toolFinish false ""]).1.completedTools
      ≤ (scanRun (initScan 2) [.start, .toolStart "subfinder", .toolFinish false ""]).1.totalTools ∧
    0 ≤ progressPercentJS
          (scanRun (initScan 2) [.start, .toolStart "subfinder", .toolFinish false ""]).1.completedTools
          (scanRun (initScan 2) [.start, .toolStart "subfinder", .toolFinish false ""]).1.totalTools ∧
    progressPercentJS
          (scanRun (initScan 2) [.start, .toolStart "subfinder", .toolFinish false ""]).1.completedTools
          (scanRun (initScan 2) [.start, .toolStart "subfinder", .toolFinish false ""]).1.totalTools ≤ 100 :=
  have h := scan_progress_counters_invariant 2
    [.start, .toolStart "subfinder", .toolFinish false ""] []
  have hb := h.2.2.2.2 (by decide) (by decide)
  ⟨h.2.1, hb.1, hb.2⟩

/-- C7: a failing tool publishes exactly one stderr terminal line and does
not abort the scan, and the client appends exactly one terminal line per
received message — red exactly when the type field is stderr, green
otherwise, with a missing type defaulting to stdout — never discarding a
message. -/
theorem tool_errors_surface_as_stderr (out : List RenderedLine) (m : TerminalMsg)
    (s : EngineScan) (line : String)
    (hs : s.status = .running) (hlt : s.completedTools < s.totalTools) :
    (appendTerminal out m).length = out.length + 1 ∧
    appendTerminal out m = out ++
      [⟨(if m.type = some "stderr" then "color: #ff6b6b;" else "color: #00ff00;"),
        escapeHtml (some (jsOrStr m.line ""))⟩] ∧
    (scanStep s (.toolFinish true line)).2
      = [ScanEv.termLine "stderr" line, ScanEv.statusEv .running] ∧
    (scanStep s (.toolFinish true line)).1.status = .running ∧
    (scanStep s (.toolFinish true line)).1.completedTools = s.completedTools + 1 := by
  refine ⟨by simp [appendTerminal], ?_, ?_, ?_, ?_⟩
  · unfold appendTerminal terminalColorClass jsOrStr
    cases hm : m.type with
    | none => simp
    | some ty =>
      by_cases h0 : ty = ""
      · simp [h0]
      · by_cases h1 : ty = "stderr" <;> simp [h0, h1]
  · simp [scanStep, hs, hlt]
  · simp [scanStep, hs, hlt]
  · simp [scanStep, hs, hlt]

/-- C7 witness: a concrete stderr message appends one red line, and a
failing tool on a concrete running scan emits one stderr event while the
scan keeps running. -/
theorem tool_errors_surface_witness :
    (appendTerminal [] ⟨some "dial tcp: timeout", some "stderr"⟩).length = 1 ∧
    appendTerminal [] ⟨some "dial tcp: timeout", some "stderr"⟩
      = [⟨"color: #ff6b6b;", escapeHtml (some "dial tcp: timeout")⟩] ∧
    (scanStep ⟨.running, 2, 0, some "subfinder", []⟩
        (.toolFinish true "subfinder failed")).2
      = [ScanEv.termLine "stderr" "subfinder failed", ScanEv.statusEv .running] :=
  have h := tool_errors_surface_as_stderr []
    ⟨some "dial tcp: timeout", some "stderr"⟩
    ⟨.running, 2, 0, some "subfinder", []⟩
    "subfinder failed" rfl (by decide)
  ⟨h.1, by rw [h.2.1]; rfl, h.2.2.1⟩

/-! ## Lemmas about the modelled probe job -/

theorem probeRun_completed_fix (t c : Nat) (n : Nat) :
    probeRun ⟨.completed, t, c⟩ n = ⟨.completed, t, c⟩ := by
  induction n with
  | zero => rfl
  | succ k ih =>
    show probeRun (probeStep ⟨.completed, t, c⟩) k = _
    have hstep : probeStep ⟨.completed, t, c⟩ = ⟨.completed, t, c⟩ := by
      unfold probeStep
      rw [if_neg]
      rintro ⟨h, -⟩
      cases h
    rw [hstep, ih]

theorem probeRun_running_char (t : Nat) :
    ∀ n k, k < t →
      probeRun ⟨.running, t, k⟩ n
        = if k + n < t then ⟨.running, t, k + n⟩ else ⟨.completed, t, t⟩ := by
  intro n
  induction n with
  | zero =>
    intro k hk
    rw [if_pos (by simpa using hk)]
    rfl
  | succ m ih =>
    intro k hk
    show probeRun (probeStep ⟨.running, t, k⟩) m = _
    have hstep : probeStep ⟨.running, t, k⟩
        = ⟨if k + 1 = t then .completed else .running, t, k + 1⟩ := by
      unfold probeStep
      rw [if_pos ⟨rfl, hk⟩]
    rw [hstep]
    by_cases hend : k + 1 = t
    · rw [if_pos hend]
      have : (⟨.completed, t, k + 1⟩ : ProbeJob) = ⟨.completed, t, t⟩ := by rw [hend]
      rw [this, probeRun_completed_fix]
      rw [if_neg (by omega)]
    · rw [if_neg hend]
      have hk1 : k + 1 < t := Nat.lt_of_le_of_ne hk hend
      rw [ih (k + 1) hk1]
      by_cases hlt : k + 1 + m < t
      · rw [if_pos hlt, if_pos (by omega)]
        have : k + 1 + m = k + (m + 1) := by omega
        rw [this]
      · rw [if_neg hlt, if_neg (by omega)]

theorem probeRun_init_char (t n : Nat) (ht : 0 < t) :
    probeRun (initProbeJob t) n
      = if n < t then ⟨.running, t, n⟩ else ⟨.completed, t, t⟩ := by
  have h := probeRun_running_char t n 0 ht
  simpa using h

theorem ratioPercent_mono (a b t : Nat) (hab : a ≤ b) (ht : t ≠ 0) :
    ((a : ℚ) / t) * 100 ≤ ((b : ℚ) / t) * 100 := by
  have habq : (a : ℚ) ≤ b := by exact_mod_cast hab
  have htq : (0 : ℚ) < t := by exact_mod_cast Nat.pos_of_ne_zero ht
  gcongr

/-- C8: for a probe job over a positive number of units, completed and the
derived progress percentage never decrease from one snapshot to the next,
the status reads completed exactly when completed equals total (so the
equality first holds at the poll that first reads a completed status), and
on that poll the client stops polling and reloads the view. -/
theorem probe_progress_monotone_to_completion (t n : Nat) (ht : 0 < t) :
    ((probeRun (initProbeJob t) n).completed
      ≤ (probeRun (initProbeJob t) (n + 1)).completed) ∧
    (probeProgressPercent (probeRun (initProbeJob t) n)
      ≤ probeProgressPercent (probeRun (initProbeJob t) (n + 1))) ∧
    ((probeRun (initProbeJob t) n).status = .completed ↔
      (probeRun (initProbeJob t) n).completed = (probeRun (initProbeJob t) n).total) ∧
    ((probeRun (initProbeJob t) n).status = .running →
      (probeRun (initProbeJob t) n).completed < (probeRun (initProbeJob t) n).total) ∧
    (∀ p : ProbeProgressMsg, p.status = some "completed" →
      (pollStep (Except.ok p)).clearPollInterval = true ∧
      (pollStep (Except.ok p)).reloadView = true) := by
  have htne : t ≠ 0 := Nat.pos_iff_ne_zero.mp ht
  rw [probeRun_init_char t n ht, probeRun_init_char t (n + 1) ht]
  by_cases h1 : n < t
  · rw [if_pos h1]
    by_cases h2 : n + 1 < t
    · rw [if_pos h2]
      refine ⟨Nat.le_succ n, ?_, ?_, fun _ => h1, ?_⟩
      · simp only [probeProgressPercent, htne, if_false]
        exact ratioPercent_mono n (n + 1) t (Nat.le_succ n) htne
      · constructor
        · intro hc; cases hc
        · intro hc; exact absurd hc (Nat.ne_of_lt h1)
      · intro p hp; simp [pollStep, hp]
    · rw [if_neg h2]
      refine ⟨Nat.le_of_lt h1, ?_, ?_, fun _ => h1, ?_⟩
      · simp only [probeProgressPercent, htne, if_false]
        exact ratioPercent_mono n t t (Nat.le_of_lt h1) htne
      · constructor
        · intro hc; cases hc
        · intro hc; exact absurd hc (Nat.ne_of_lt h1)
      · intro p hp; simp [pollStep, hp]
  · rw [if_neg h1, if_neg (by omega)]
    refine ⟨Nat.le_refl t, le_refl _, ?_, ?_, ?_⟩
    · exact ⟨fun _ => rfl, fun _ => rfl⟩
    · intro hc; cases hc
    · intro p hp; simp [pollStep, hp]

/-- C8 witness: for a two-unit job, the snapshot after one unit is strictly
before completion, the snapshot after two units reads completed with
completed equal to total, and the client's poll on a completed snapshot
stops the loop and reloads. -/
theorem probe_progress_witness :
    ((probeRun (initProbeJob 2) 1).completed
      ≤ (probeRun (initProbeJob 2) 2).completed) ∧
    ((probeRun (initProbeJob 2) 2).status = .completed ↔
      (probeRun (initProbeJob 2) 2).completed = (probeRun (initProbeJob 2) 2).total) ∧
    (pollStep (Except.ok ⟨some "completed", 2, 2, some 100⟩)).clearPollInterval = true ∧
    (pollStep (Except.ok ⟨some "completed", 2, 2, some 100⟩)).reloadView = true :=
  have h1 := probe_progress_monotone_to_completion 2 1 (by decide)
  have h2 := probe_progress_monotone_to_completion 2 2 (by decide)
  have hp := h1.2.2.2.2 ⟨some "completed", 2, 2, some 100⟩ rfl
  ⟨h1.1, h2.2.2.1, hp.1, hp.2⟩

/-! ## Lemmas about escapeHtml and rendered structure -/

theorem escCh_no_angle (c : Char) : '<' ∉ escCh c ∧ '>' ∉ escCh c := by
  unfold escCh
  split_ifs with h1 h2 h3
  · exact ⟨by decide, by decide⟩
  · exact ⟨by decide, by decide⟩
  · exact ⟨by decide, by decide⟩
  · constructor
    · simp only [List.mem_singleton]
      exact fun h => h2 h.symm
    · simp only [List.mem_singleton]
      exact fun h => h3 h.symm

theorem escList_no_angle (cs : List Char) :
    '<' ∉ escList cs ∧ '>' ∉ escList cs := by
  induction cs with
  | nil => exact ⟨List.not_mem_nil _, List.not_mem_nil _⟩
  | cons c rest ih =>
    simp only [escList, List.mem_append]
    constructor
    · rintro (h | h)
      · exact (escCh_no_angle c).1 h
      · exact ih.1 h
    · rintro (h | h)
      · exact (escCh_no_angle c).2 h
      · exact ih.2 h

theorem escapeHtml_no_angle (t : Option String) :
    '<' ∉ (escapeHtml t).data ∧ '>' ∉ (escapeHtml t).data := by
  unfold escapeHtml
  split
  · exact ⟨List.not_mem_nil _, List.not_mem_nil _⟩
  · exact escList_no_angle _

theorem tagsAux_skip (m : List Char) (rest : List Char) (h : '<' ∉ m) :
    tagsAux none (m ++ rest) = tagsAux none rest := by
  induction m with
  | nil => rfl
  | cons c cs ih =>
    have hc : c ≠ '<' := fun hc => h (hc ▸ List.mem_cons_self c cs)
    simp only [List.cons_append, tagsAux]
    rw [if_neg hc]
    exact ih (fun hm => h (List.mem_cons_of_mem c hm))

theorem tagsAux_collect (m : List Char) :
    ∀ (acc rest : List Char), '>' ∉ m →
      tagsAux (some acc) (m ++ rest) = tagsAux (some (m.reverse ++ acc)) rest := by
  induction m with
  | nil => intro acc rest _; rfl
  | cons c cs ih =>
    intro acc rest h
    have hc : c ≠ '>' := fun hc => h (hc ▸ List.mem_cons_self c cs)
    simp only [List.cons_append, tagsAux, List.append_eq]
    rw [if_neg hc]
    rw [ih (c :: acc) rest (fun hm => h (List.mem_cons_of_mem c hm))]
    simp

theorem tags_span_decomp (body content rest : List Char)
    (hb : '>' ∉ body) (hc : '<' ∉ content) :
    tagsAux none ('<' :: (body ++ '>' :: (content ++ rest)))
      = body :: tagsAux none rest := by
  have h1 : tagsAux none ('<' :: (body ++ '>' :: (content ++ rest)))
      = tagsAux (some []) (body ++ '>' :: (content ++ rest)) := by
    simp [tagsAux]
  rw [h1, tagsAux_collect body [] ('>' :: (content ++ rest)) hb]
  simp only [tagsAux, if_true, eq_self_iff_true]
  rw [tagsAux_skip content rest hc]
  simp

theorem terminal_tags_general (color esc : String)
    (hcg : '>' ∉ color.data) (hesc : '<' ∉ esc.data) :
    extractTags ("<span style=\"" ++ color ++ "\">" ++ esc ++ "</span>\n")
      = ["span style=\"" ++ color ++ "\"", "/span"] := by
  unfold extractTags
  have hdata : ("<span style=\"" ++ color ++ "\">" ++ esc ++ "</span>\n").data
      = '<' :: ((("span style=\"").data ++ color.data ++ ['"'])
          ++ '>' :: (esc.data ++ ("</span>\n").data)) := by
    simp [String.data_append, List.append_assoc]
  have hb : '>' ∉ ("span style=\"").data ++ color.data ++ ['"'] := by
    intro hmem
    rcases List.mem_append.mp hmem with hmem1 | hmem1
    · rcases List.mem_append.mp hmem1 with hmem2 | hmem2
      · revert hmem2; decide
      · exact hcg hmem2
    · revert hmem1; decide
  rw [hdata, tags_span_decomp _ _ _ hb hesc]
  have htail : tagsAux none ("</span>\n").data = [("/span").data] := by decide
  rw [htail]
  simp only [List.map]
  rfl

theorem terminalColorClass_no_gt (x : String) :
    '>' ∉ (terminalColorClass x).data := by
  unfold terminalColorClass
  split <;> decide

/-- C9 (amended): the effective escapeHtml (the second declaration) returns
the empty string for every falsy input and replaces the characters amp, lt
and gt — but not quotes — with entities, so its output never contains an
angle bracket; consequently the tag structure of an element-content
interpolation such as a terminal line is fixed: it is the same span pair
for every line content, depending only on the message type.  Interpolations
that sit inside attribute values are not protected against a double quote
in the data. -/
theorem escapeHtml_structural_effects :
    (escapeHtml none = "" ∧ escapeHtml (some "") = "") ∧
    (∀ s : String, '<' ∉ (escapeHtml (some s)).data ∧ '>' ∉ (escapeHtml (some s)).data) ∧
    (∀ m : TerminalMsg, extractTags (terminalLineHtml m)
      = ["span style=\"" ++ terminalColorClass (jsOrStr m.type "stdout") ++ "\"", "/span"]) ∧
    (∀ m1 m2 : TerminalMsg, m1.type = m2.type →
      extractTags (terminalLineHtml m1) = extractTags (terminalLineHtml m2)) := by
  have htags : ∀ m : TerminalMsg, extractTags (terminalLineHtml m)
      = ["span style=\"" ++ terminalColorClass (jsOrStr m.type "stdout") ++ "\"", "/span"] := by
    intro m
    unfold terminalLineHtml
    exact terminal_tags_general _ _ (terminalColorClass_no_gt _)
      (escapeHtml_no_angle _).1
  refine ⟨⟨rfl, rfl⟩, fun s => escapeHtml_no_angle (some s), htags, ?_⟩
  intro m1 m2 hty
  rw [htags m1, htags m2, hty]

/-- C9 counterexample: escapeHtml leaves the double quote intact, so a
project name containing a quote, although passed through escapeHtml, breaks
out of the title attribute of its row and adds an attribute — the HTML
structure of the rendered row depends on the interpolated content. -/
theorem escapeHtml_attribute_breakout :
    escapeHtml (some "\"") = "\"" ∧
    firstTagAttrNames (projectNameSpanHtml (some "a\" onclick=\"x")) ≠
      firstTagAttrNames (projectNameSpanHtml (some "a")) := by
  exact ⟨by decide, by decide⟩

/-- C9 witness: two terminal lines of very different content, one of them
attempting tag injection, render with identical tag structure. -/
theorem escapeHtml_structural_witness :
    extractTags (terminalLineHtml ⟨some "alpha", none⟩)
      = extractTags (terminalLineHtml ⟨some "<img onerror=x>", none⟩) :=
  escapeHtml_structural_effects.2.2.2 ⟨some "alpha", none⟩
    ⟨some "<img onerror=x>", none⟩ rfl

/-- C10: renderStatusBadge is total over all inputs: falsy or pending
status yields the Pending badge, the three online values yield one and the
same Online badge, dns_only and offline yield their badges, and any other
value yields Unknown; a protocol or response-code badge appears only when
the corresponding status code parses to a nonzero number, and equal HTTP
and HTTPS codes produce a single code badge while distinct ones produce
two. -/
theorem renderStatusBadge_total_cases :
    (∀ isOnline http https : Option String,
      jsStrTruthy isOnline = false ∨ isOnline = some "pending" →
        renderStatusBadge isOnline http https = pendingBadgeHtml) ∧
    (statusBadgeSpan (some "online_both") = statusBadgeSpan (some "online_http") ∧
     statusBadgeSpan (some "online_both") = statusBadgeSpan (some "online_https") ∧
     statusBadgeSpan (some "online_both")
       = "<span class=\"status-badge status-online-both\">Online</span>") ∧
    (statusBadgeSpan (some "dns_only")
       = "<span class=\"status-badge status-dns-only\">DNS Only</span>" ∧
     statusBadgeSpan (some "offline")
       = "<span class=\"status-badge status-offline\">Offline</span>") ∧
    (∀ v : Option String, v ≠ some "online_both" → v ≠ some "online_http" →
      v ≠ some "online_https" → v ≠ some "dns_only" → v ≠ some "offline" →
      statusBadgeSpan v = "<span class=\"status-badge status-pending\">Unknown</span>") ∧
    (∀ v : Option String, hasCode v = true ↔
      ∃ n : Int, statusCodeOf v = some n ∧ n ≠ 0) ∧
    (∀ http https : Option String, (protocolBadges http https).length
      = (if hasCode http then 1 else 0) + (if hasCode https then 1 else 0)) ∧
    (∀ http https : Option String, hasCode http = true → hasCode https = true →
      statusCodeOf http = statusCodeOf https → (codeBadges http https).length = 1) ∧
    (∀ http https : Option String, hasCode http = true → hasCode https = true →
      statusCodeOf http ≠ statusCodeOf https → (codeBadges http https).length = 2) := by
  refine ⟨?_, ⟨rfl, rfl, rfl⟩, ⟨rfl, rfl⟩, ?_, ?_, ?_, ?_, ?_⟩
  · intro isOnline http https h
    rcases h with h | h
    · simp [renderStatusBadge, h]
    · simp [renderStatusBadge, h]
  · intro v h1 h2 h3 h4 h5
    simp [statusBadgeSpan, h1, h2, h3, h4, h5]
  · intro v
    unfold hasCode
    cases h : statusCodeOf v with
    | none => simp
    | some n => simp [bne_iff_ne]
  · intro http https
    unfold protocolBadges
    by_cases h1 : hasCode http <;> by_cases h2 : hasCode https <;> simp [h1, h2]
  · intro http https h1 h2 heq
    simp [codeBadges, h1, h2, heq]
  · intro http https h1 h2 hne
    simp [codeBadges, h1, h2, hne]

/-- C10 witness: a null status renders Pending, an unexpected enum value
renders Unknown, equal 200/200 codes yield one code badge, distinct 200/301
codes yield two. -/
theorem renderStatusBadge_witness :
    renderStatusBadge none (some "200") none = pendingBadgeHtml ∧
    statusBadgeSpan (some "weird")
      = "<span class=\"status-badge status-pending\">Unknown</span>" ∧
    (codeBadges (some "200") (some "200")).length = 1 ∧
    (codeBadges (some "200") (some "301")).length = 2 :=
  have h := renderStatusBadge_total_cases
  ⟨h.1 none (some "200") none (Or.inl rfl),
   h.2.2.2.1 (some "weird") (by decide) (by decide) (by decide) (by decide) (by decide),
   h.2.2.2.2.2.2.1 (some "200") (some "200") (by decide) (by decide) (by decide),
   h.2.2.2.2.2.2.2 (some "200") (some "301") (by decide) (by decide) (by decide)⟩

end BellowTheRoot
